import Mathlib

/-!
Verification development for the pravegasink element
(gst-plugin-pravega/src/pravegasink/imp.rs).

The Rust source is shallowly embedded: machine integers (u64 nanosecond
timestamps, byte offsets, counters) become `Nat`; optional values
(`PravegaTimestamp` which may be `NONE`, `Option<u64>`, GStreamer
`ClockTime`) become `Option Nat`; fallible constructors become `Except`.
Side-effecting calls (flush, index-record writes, event writes, truncate
calls) are recorded in explicit traces of operations, in the order the
source performs them.
-/

namespace PravegaSink

/-- Timestamp interpretation modes of the sink (enum `TimestampMode` in imp.rs). -/
inductive TimestampMode
  | RealtimeClock
  | Ntp
  | Tai
  deriving DecidableEq, Repr

/-- Retention type property values (enum `RetentionType` in imp.rs). -/
inductive RetentionType
  | None
  | Days
  | Bytes
  | DaysAndBytes
  deriving DecidableEq, Repr

/-- Retention policy (enum `RetentionPolicy` in imp.rs).  The days value is a
Rust `f64` and the bytes value a `u64`; the sink never computes with the days
value except in the maintainer, so both are carried as type parameters. -/
inductive RetentionPolicy (D B : Type)
  | days (d : D)
  | bytes (b : B)
  | daysAndBytes (d : D) (b : B)
  | None
  deriving DecidableEq, Repr

/-- `RetentionPolicy::new` from imp.rs: builds the policy from the configured
retention type and the optional `retention-days` / `retention-bytes`
properties, failing with the source's error strings when a required
parameter is missing. -/
def RetentionPolicy.new {D B : Type} (retentionType : RetentionType)
    (days : Option D) (bytes : Option B) : Except String (RetentionPolicy D B) :=
  match retentionType with
  | .Days =>
    match days with
    | some d => .ok (.days d)
    | none => .error "retention-days is not set"
  | .Bytes =>
    match bytes with
    | some b => .ok (.bytes b)
    | none => .error "retention-bytes is not set"
  | .DaysAndBytes =>
    match days with
    | none => .error "retention-days is not set"
    | some d =>
      match bytes with
      | none => .error "retention-bytes is not set"
      | some b => .ok (.daysAndBytes d b)
  | .None => .ok .None

/-- An index record as constructed by the sink (`IndexRecord::new` call sites
in imp.rs): canonical timestamp, byte offset into the data stream, and the
random-access / discontinuity flags. -/
structure IndexRecord where
  timestamp : Option Nat
  offset : Nat
  randomAccess : Bool
  discontinuity : Bool
  deriving DecidableEq, Repr

/-- GStreamer buffer flags consulted by `render`. -/
structure BufferFlags where
  deltaUnit : Bool
  discont : Bool
  resync : Bool
  syncAfter : Bool
  deriving DecidableEq, Repr

/-- The per-session mutable fields of `State::Started` in imp.rs that `render`
and `stop` read and update, plus the current data-stream write position
(the value `writer.seek(SeekFrom::Current(0))` returns). -/
structure SessionState where
  firstValidTime : Option Nat
  lastIndexTime : Option Nat
  finalTimestamp : Option Nat
  finalOffset : Option Nat
  buffersWritten : Nat
  writerOffset : Nat
  deriving DecidableEq, Repr

/-- The session state installed by `start` in imp.rs (`State::Started` with
`first_valid_time = NONE`, `last_index_time = NONE`, `final_timestamp = NONE`,
`final_offset = None`, `buffers_written = 0`), with the data writer positioned
at the stream tail `tail`. -/
def initialSessionState (tail : Nat) : SessionState :=
  { firstValidTime := none
    lastIndexTime := none
    finalTimestamp := none
    finalOffset := none
    buffersWritten := 0
    writerOffset := tail }

/-- The include-in-index decision computed by `render` (imp.rs lines 929-988),
transcribed branch by branch: a `none` timestamp is never indexed; with a
prior index record the decision compares against `last_index_time` plus the
max (delta unit) or min (key frame) interval; with no prior record a key
frame is always indexed and a delta unit only once
`timestamp > first_valid_time + index_max_nanos`. -/
def includeInIndex (timestamp : Option Nat) (isDeltaUnit : Bool)
    (lastIndexTime firstValidTime : Option Nat)
    (indexMinNanos indexMaxNanos : Nat) : Bool :=
  match timestamp with
  | some ts =>
    match lastIndexTime with
    | some lit =>
      if isDeltaUnit then
        decide (ts > lit + indexMaxNanos)
      else
        if ts < lit + indexMinNanos then false else true
    | none =>
      if !isDeltaUnit then
        true
      else
        match firstValidTime with
        | some fvt => decide (ts > fvt + indexMaxNanos)
        | none => false
  | none => false

/-- Optional-timestamp addition as used by the spec's data model: arithmetic
on a `none` timestamp yields `none`. -/
def optAdd (a : Option Nat) (b : Nat) : Option Nat :=
  match a with
  | some x => some (x + b)
  | none => none

/-- Optional-timestamp strict comparison as used by the spec's data model:
comparisons involving `none` yield `false`. -/
def optLt (a b : Option Nat) : Bool :=
  match a, b with
  | some x, some y => decide (x < y)
  | _, _ => false

/-- The spec's decision table for index inclusion (spec section 4.2),
written from the spec's words: rows keyed on `last_index_time` and the
random-access flag, with a `none` timestamp excluded unconditionally and
`none`-valued comparisons yielding exclude. -/
def specIncludeInIndex (timestamp : Option Nat) (isRandomAccess : Bool)
    (lastIndexTime firstValidTime : Option Nat)
    (indexMinNanos indexMaxNanos : Nat) : Bool :=
  match timestamp with
  | none => false
  | some ts =>
    match lastIndexTime with
    | none =>
      if isRandomAccess then true
      else optLt (optAdd firstValidTime indexMaxNanos) (some ts)
    | some t =>
      if isRandomAccess then decide (ts ≥ t + indexMinNanos)
      else decide (ts > t + indexMaxNanos)

/-- An event as assembled by `render` for one atomic write
(`EventWithHeader::new` call sites in imp.rs): a payload slice plus the
timestamp and the include-in-index / random-access / discontinuity flags
carried in the event header. -/
structure EventWithHeader where
  payload : List Nat
  timestamp : Option Nat
  includeInIndex : Bool
  randomAccess : Bool
  discontinuity : Bool
  deriving DecidableEq, Repr

/-- The payload slices produced by the fragmentation loop in `render`
(imp.rs lines 1039-1063): each iteration writes
`min(remaining, max_payload_size)` bytes and the loop breaks as soon as that
minimum is zero, so an empty payload (or a zero maximum) produces no slices. -/
def fragmentChunks (payload : List Nat) (maxUnit : Nat) : List (List Nat) :=
  if hbreak : maxUnit = 0 ∨ payload.length = 0 then
    []
  else
    payload.take maxUnit :: fragmentChunks (payload.drop maxUnit) maxUnit
termination_by payload.length
decreasing_by
  simp only [List.length_drop]
  push_neg at hbreak
  exact Nat.sub_lt (Nat.pos_of_ne_zero hbreak.2) (Nat.pos_of_ne_zero hbreak.1)

/-- The events produced by the fragmentation loop in `render`: the first
chunk (written at `pos_to_write == 0`) carries the real
`include_in_index`, `random_access` and `discontinuity` values, every
later chunk is written with all three forced to `false`. -/
def fragmentEvents (payload : List Nat) (maxUnit : Nat) (timestamp : Option Nat)
    (includeInIndex randomAccess discontinuity : Bool) : List EventWithHeader :=
  match fragmentChunks payload maxUnit with
  | [] => []
  | c :: cs =>
    { payload := c, timestamp := timestamp, includeInIndex := includeInIndex,
      randomAccess := randomAccess, discontinuity := discontinuity }
      :: cs.map (fun c =>
           { payload := c, timestamp := timestamp, includeInIndex := false,
             randomAccess := false, discontinuity := false })

/-- One observable operation performed by `render` on the streams, in the
order the source performs them. -/
inductive Op
  | captureOffset (offset : Nat)
  | flushData
  | writeIndexRecord (record : IndexRecord)
  | writeEvent (event : EventWithHeader)
  | flushIndex
  deriving DecidableEq, Repr

/-- Configuration consumed by each `render` call: the index intervals from
the settings (nanoseconds), the maximum atomic payload size
(`EventWithHeader::max_payload_size()`), and the encoded size of an event
header (external codec constants). -/
structure RenderCfg where
  indexMinNanos : Nat
  indexMaxNanos : Nat
  maxPayloadSize : Nat
  headerSize : Nat
  deriving DecidableEq, Repr

/-- The inputs of one `render` call: the buffer's canonical timestamp (the
output of the timestamp normalizer), its duration, payload bytes and flags. -/
structure RenderInput where
  timestamp : Option Nat
  duration : Option Nat
  payload : List Nat
  flags : BufferFlags
  deriving DecidableEq, Repr

/-- `first_valid_time` after the update at the top of `render`
(imp.rs lines 913-915): set to the buffer timestamp if still `NONE`. -/
def updatedFirstValidTime (s : SessionState) (b : RenderInput) : Option Nat :=
  if s.firstValidTime.isNone then b.timestamp else s.firstValidTime

/-- The include-in-index decision as `render` makes it, applied to the
updated `first_valid_time` (the update precedes the decision in the source). -/
def renderDecision (cfg : RenderCfg) (s : SessionState) (b : RenderInput) : Bool :=
  includeInIndex b.timestamp b.flags.deltaUnit s.lastIndexTime
    (updatedFirstValidTime s b) cfg.indexMinNanos cfg.indexMaxNanos

/-- The discontinuity flag computed by `render` (imp.rs lines 1004-1008):
buffer flagged DISCONT or RESYNC, or first buffer written by this instance,
or first index record written by this instance. -/
def discontinuityFlag (flags : BufferFlags) (buffersWritten : Nat)
    (includeInIndex : Bool) (lastIndexTime : Option Nat) : Bool :=
  flags.discont || flags.resync || decide (buffersWritten = 0)
    || (includeInIndex && lastIndexTime.isNone)

/-- The discontinuity predicate written from the spec's words (section 4.2):
explicitly flagged discontinuous or resynced, or the very first buffer ever
written in the session, or being indexed while no index record has ever been
written in the session. -/
def specDiscontinuity (flags : BufferFlags) (buffersWritten : Nat)
    (beingIndexed : Bool) (indexRecordWrittenBefore : Bool) : Prop :=
  flags.discont = true ∨ flags.resync = true ∨ buffersWritten = 0
    ∨ (beingIndexed = true ∧ indexRecordWrittenBefore = false)

/-- The events `render` writes for the current buffer. -/
def renderEvents (cfg : RenderCfg) (s : SessionState) (b : RenderInput) :
    List EventWithHeader :=
  fragmentEvents b.payload cfg.maxPayloadSize b.timestamp
    (renderDecision cfg s b) (!b.flags.deltaUnit)
    (discontinuityFlag b.flags s.buffersWritten (renderDecision cfg s b) s.lastIndexTime)

/-- The index record `render` constructs when it includes the buffer in the
index (`IndexRecord::new(timestamp, writer_offset, random_access,
discontinuity)` in imp.rs): it references the offset captured before any
write of this buffer. -/
def renderRecord (cfg : RenderCfg) (s : SessionState) (b : RenderInput) :
    IndexRecord :=
  { timestamp := b.timestamp, offset := s.writerOffset,
    randomAccess := !b.flags.deltaUnit,
    discontinuity := discontinuityFlag b.flags s.buffersWritten
      (renderDecision cfg s b) s.lastIndexTime }

/-- The data-stream write position after the fragmentation loop
(`writer_offset_end` in imp.rs): each written event advances the stream by
its header plus its payload. -/
def renderOffsetEnd (cfg : RenderCfg) (s : SessionState) (b : RenderInput) : Nat :=
  s.writerOffset
    + ((renderEvents cfg s b).map (fun e => cfg.headerSize + e.payload.length)).sum

/-- One `render` call in the `Started` state (imp.rs lines 844-1100),
transcribed in source order: update `first_valid_time`; capture the write
offset; decide inclusion; flush the data stream if including; compute the
discontinuity flag; write the index record at the captured offset if
including, updating `last_index_time`; fragment and write the payload;
increment `buffers_written`; flush both streams if the buffer carries
SYNC_AFTER; update `final_timestamp` (timestamp plus `max(1, duration)`
when the timestamp is valid) and `final_offset` (position after the write).
Returns the new session state and the trace of stream operations. -/
def render (cfg : RenderCfg) (s : SessionState) (b : RenderInput) :
    SessionState × List Op :=
  let firstValidTime := updatedFirstValidTime s b
  let writerOffset := s.writerOffset
  let inc := renderDecision cfg s b
  let record := renderRecord cfg s b
  let events := renderEvents cfg s b
  let writerOffsetEnd := renderOffsetEnd cfg s b
  let ops := [Op.captureOffset writerOffset]
    ++ (if inc then [Op.flushData] else [])
    ++ (if inc then [Op.writeIndexRecord record] else [])
    ++ events.map Op.writeEvent
    ++ (if b.flags.syncAfter then [Op.flushData, Op.flushIndex] else [])
  let finalTimestamp :=
    match b.timestamp with
    | some ts => some (ts + max 1 (b.duration.getD 0))
    | none => s.finalTimestamp
  ({ firstValidTime := firstValidTime,
     lastIndexTime := if inc then b.timestamp else s.lastIndexTime,
     finalTimestamp := finalTimestamp,
     finalOffset := some writerOffsetEnd,
     buffersWritten := s.buffersWritten + 1,
     writerOffset := writerOffsetEnd }, ops)

/-- The final index record appended by `stop` (imp.rs lines 1146-1159):
present exactly when a final offset was recorded and the final timestamp is
valid, with `random_access=false, discontinuity=false`. -/
def stopFinalRecord (s : SessionState) : Option IndexRecord :=
  match s.finalOffset with
  | some finalOffset =>
    if s.finalTimestamp.isSome then
      some { timestamp := s.finalTimestamp, offset := finalOffset,
             randomAccess := false, discontinuity := false }
    else
      none
  | none => none

/-- GStreamer `ClockTime` addition (`element.base_time() + pts` in `render`):
adding an unavailable time yields an unavailable time. -/
def clockTimeAdd (a b : Option Nat) : Option Nat :=
  match a, b with
  | some x, some y => some (x + y)
  | _, _ => none

/-- Modelled from the spec: `PravegaTimestamp::from_nanoseconds` from the
`pravega_video` crate (not under src/) — the input is already nanoseconds
since the canonical epoch and is taken directly. -/
def fromTaiNanoseconds (n : Option Nat) : Option Nat := n

/-- Modelled from the spec: `PravegaTimestamp::from_unix_nanoseconds` from the
`pravega_video` crate (not under src/) — interprets the input as nanoseconds
since the Unix epoch and applies a fixed epoch conversion to the canonical
(leap-second aware) epoch, abstracted here as `unixToCanonical`; an
unavailable input yields `none` and raises no error. -/
def fromUnixNanoseconds (unixToCanonical : Nat → Nat) (n : Option Nat) :
    Option Nat :=
  n.map unixToCanonical

/-- Modelled from the spec: `PravegaTimestamp::from_ntp_nanoseconds` from the
`pravega_video` crate (not under src/) — interprets the input as nanoseconds
since the NTP epoch (1900-01-01) and applies a fixed epoch conversion to the
canonical epoch, abstracted here as `ntpToCanonical`; an unavailable input
yields `none` and raises no error. -/
def fromNtpNanoseconds (ntpToCanonical : Nat → Nat) (n : Option Nat) :
    Option Nat :=
  n.map ntpToCanonical

/-- The timestamp normalization performed by `render` (imp.rs lines 895-911):
dispatch on the configured timestamp mode.  `RealtimeClock` feeds
`base_time + pts` to the Unix-epoch conversion; `Ntp` feeds `pts` to the
NTP-epoch conversion, ignoring the base time; `Tai` takes `pts` directly. -/
def normalizeTimestamp (unixToCanonical ntpToCanonical : Nat → Nat)
    (mode : TimestampMode) (baseTime pts : Option Nat) : Option Nat :=
  match mode with
  | .RealtimeClock => fromUnixNanoseconds unixToCanonical (clockTimeAdd baseTime pts)
  | .Ntp => fromNtpNanoseconds ntpToCanonical pts
  | .Tai => fromTaiNanoseconds pts

/-- The configuration fields of `Settings` consulted by `start` in imp.rs.
The days parameter type is abstract, as in `RetentionPolicy`. -/
structure SinkSettings (D : Type) where
  scope : Option String
  stream : Option String
  controller : Option String
  indexMinNanos : Nat
  indexMaxNanos : Nat
  allowCreateScope : Bool
  retentionType : RetentionType
  retentionDays : Option D
  retentionBytes : Option Nat

/-- The distinct errors `start` can report during validation and retention
policy construction (imp.rs lines 713-818). -/
inductive StartErr
  | intervalOrder
  | scopeMissing
  | streamMissing
  | controllerMissing
  | retentionParamMissing (msg : String)
  deriving DecidableEq, Repr

/-- The I/O performed by `start` between the settings checks and the
retention-policy construction (imp.rs lines 750-813), in source order. -/
inductive StartAction
  | createScope
  | createDataStream
  | createIndexStream
  | openDataWriter
  | openIndexWriter
  | spawnRetentionMaintainer
  deriving DecidableEq, Repr

/-- The stream-service calls `start` performs once the settings checks have
passed: create the scope when permitted, create both streams, open both
writers at the tail. -/
def startIOActions (allowCreateScope : Bool) : List StartAction :=
  (if allowCreateScope then [StartAction.createScope] else [])
    ++ [StartAction.createDataStream, StartAction.createIndexStream,
        StartAction.openDataWriter, StartAction.openIndexWriter]

/-- The `start` transition (imp.rs lines 705-842) with the storage-service
calls assumed to succeed: validate `index_min_nanos <= index_max_nanos`,
then the scope, stream and controller settings (all before any I/O), then
perform the stream-service I/O, then construct the retention policy (failing
here aborts `start` after that I/O), then spawn the retention maintainer and
enter `Started`.  Returns the I/O actions performed and the result; any
error leaves the element `Stopped`. -/
def startTransition {D : Type} (s : SinkSettings D) :
    List StartAction × Except StartErr Unit :=
  if ¬ s.indexMinNanos ≤ s.indexMaxNanos then
    ([], .error .intervalOrder)
  else
    match s.scope with
    | none => ([], .error .scopeMissing)
    | some _ =>
      match s.stream with
      | none => ([], .error .streamMissing)
      | some _ =>
        match s.controller with
        | none => ([], .error .controllerMissing)
        | some _ =>
          let ios := startIOActions s.allowCreateScope
          match RetentionPolicy.new s.retentionType s.retentionDays s.retentionBytes with
          | .error msg => (ios, .error (.retentionParamMissing msg))
          | .ok _ => (ios ++ [StartAction.spawnRetentionMaintainer], .ok ())

/-- The element phase after a `start` attempt: every error path in `start`
returns before `*state = State::Started`, so the element stays `Stopped`. -/
inductive SinkPhase
  | stopped
  | started
  deriving DecidableEq, Repr

/-- The phase the element is left in by `startTransition`. -/
def phaseAfterStart {D : Type} (s : SinkSettings D) : SinkPhase :=
  match (startTransition s).2 with
  | .error _ => .stopped
  | .ok _ => .started

/-- A truncate call issued by the retention maintainer
(`truncate_data_before` call sites in imp.rs lines 185-202). -/
inductive TruncateCall
  | truncateIndexBefore (offset : Nat)
  | truncateDataBefore (offset : Nat)
  deriving DecidableEq, Repr

/-- The result of a locate over the index stream
(`search_timestamp_and_return_index_offset` /
`search_size_and_return_index_offset`): the matching index record and that
record's own offset within the index stream. -/
structure SearchResult where
  record : IndexRecord
  indexOffset : Nat
  deriving DecidableEq, Repr

/-- What `recv_timeout` on the stop channel yields at the end of a maintainer
cycle (imp.rs lines 207-213). -/
inductive StopRecv
  | received
  | disconnected
  | timeout
  deriving DecidableEq, Repr

/-- Whether the maintainer loop continues after a cycle: a stop message or a
disconnected channel breaks the loop, a timeout continues it. -/
inductive LoopOutcome
  | continueLoop
  | exitLoop
  deriving DecidableEq, Repr

/-- The (seconds, bytes) components the maintainer derives from its policy
at the top of `RetentionMaintainer::run` (imp.rs lines 165-170);
`days_to_seconds` is the source's f64 day-to-second conversion, abstracted
over the abstract days type. -/
def policyComponents {D : Type} (daysToSeconds : D → Int)
    (p : RetentionPolicy D Nat) : Option Int × Option Nat :=
  match p with
  | .days d => (some (daysToSeconds d), none)
  | .bytes b => (none, some b)
  | .daysAndBytes d b => (some (daysToSeconds d), some b)
  | .None => (none, none)

/-- Whether `RetentionMaintainer::run` spawns the maintainer thread at all
(imp.rs lines 172-174): it returns `None` without spawning when neither a
time nor a size component is present. -/
def maintainerStarts {D : Type} (daysToSeconds : D → Int)
    (p : RetentionPolicy D Nat) : Bool :=
  let c := policyComponents daysToSeconds p
  c.1.isSome || c.2.isSome

/-- The truncate calls of one truncation step in the maintainer loop
(imp.rs lines 183-190 and 196-203): on a successful locate, truncate the
index stream before the located record's index offset and the data stream
before that record's data offset; on a locate error, do nothing. -/
def truncStep (searchResult : Except String SearchResult) : List TruncateCall :=
  match searchResult with
  | .ok r => [TruncateCall.truncateIndexBefore r.indexOffset,
              TruncateCall.truncateDataBefore r.record.offset]
  | .error _ => []

/-- One cycle of the retention maintainer loop (imp.rs lines 178-214): the
time-based step runs when the policy has a time component, using the result
of the locate-by-timestamp; the size-based step runs when it has a size
component, using the locate-by-size result; then the stop channel decides
whether the loop continues. -/
def retentionCycle (seconds : Option Int) (bytes : Option Nat)
    (timeSearch sizeSearch : Except String SearchResult)
    (stop : StopRecv) : List TruncateCall × LoopOutcome :=
  ((match seconds with
    | some _ => truncStep timeSearch
    | none => [])
    ++ (match bytes with
        | some _ => truncStep sizeSearch
        | none => []),
   match stop with
   | .received => .exitLoop
   | .disconnected => .exitLoop
   | .timeout => .continueLoop)

lemma fragmentChunks_nil (m : Nat) : fragmentChunks [] m = [] := by
  rw [fragmentChunks]
  simp

lemma fragmentChunks_cons (m : Nat) (p : List Nat) (hm : m ≠ 0)
    (hp : p.length ≠ 0) :
    fragmentChunks p m = p.take m :: fragmentChunks (p.drop m) m := by
  rw [fragmentChunks]
  rw [dif_neg (by push_neg; exact ⟨hm, hp⟩)]

lemma fragmentChunks_flatten (m : Nat) (hm : m ≠ 0) (p : List Nat) :
    (fragmentChunks p m).flatten = p := by
  generalize hL : p.length = n
  induction n using Nat.strong_induction_on generalizing p with
  | _ n ih =>
    by_cases hp : p.length = 0
    · have : p = [] := List.length_eq_zero.mp hp
      subst this
      rw [fragmentChunks_nil]
      rfl
    · rw [fragmentChunks_cons m p hm hp]
      rw [List.flatten_cons]
      rw [ih (p.drop m).length ?_ (p.drop m) rfl]
      · exact List.take_append_drop m p
      · rw [List.length_drop]
        subst hL
        exact Nat.sub_lt (Nat.pos_of_ne_zero hp) (Nat.pos_of_ne_zero hm)

lemma fragmentChunks_small (m : Nat) (p : List Nat) (h0 : p.length ≠ 0)
    (hle : p.length ≤ m) :
    fragmentChunks p m = [p] := by
  have hm : m ≠ 0 := by omega
  rw [fragmentChunks_cons m p hm h0]
  rw [List.take_of_length_le hle, List.drop_eq_nil_of_le hle, fragmentChunks_nil]

lemma fragmentChunks_length_exact (m r : Nat) (hr : 0 < r) (hrm : r < m) :
    ∀ (k : Nat) (p : List Nat), p.length = k * m + r →
      (fragmentChunks p m).length = k + 1 := by
  intro k
  induction k with
  | zero =>
    intro p hp
    rw [fragmentChunks_small m p (by omega) (by omega)]
    rfl
  | succ k ih =>
    intro p hp
    have hm : m ≠ 0 := by omega
    rw [fragmentChunks_cons m p hm (by rw [hp]; positivity)]
    rw [List.length_cons]
    rw [ih (p.drop m) (by rw [List.length_drop, hp, Nat.succ_mul]; omega)]

lemma fragmentChunks_chunk_le (m : Nat) (p : List Nat) :
    ∀ c ∈ fragmentChunks p m, c.length ≤ m := by
  generalize hL : p.length = n
  induction n using Nat.strong_induction_on generalizing p with
  | _ n ih =>
    by_cases hbr : m = 0 ∨ p.length = 0
    · rw [fragmentChunks, dif_pos hbr]
      intro c hc
      exact absurd hc (List.not_mem_nil c)
    · push_neg at hbr
      rw [fragmentChunks_cons m p hbr.1 hbr.2]
      intro c hc
      rcases List.mem_cons.mp hc with rfl | hc
      · rw [List.length_take]
        exact min_le_left _ _
      · refine ih (p.drop m).length ?_ (p.drop m) rfl c hc
        rw [List.length_drop]
        subst hL
        exact Nat.sub_lt (Nat.pos_of_ne_zero hbr.2) (Nat.pos_of_ne_zero hbr.1)

lemma fragmentEvents_map_payload (p : List Nat) (m : Nat) (ts : Option Nat)
    (inc ra disc : Bool) :
    (fragmentEvents p m ts inc ra disc).map (fun e => e.payload)
      = fragmentChunks p m := by
  rw [fragmentEvents]
  cases h : fragmentChunks p m with
  | nil => rfl
  | cons c cs =>
    simp [List.map_map]
    exact List.map_id cs

lemma fragmentEvents_length (p : List Nat) (m : Nat) (ts : Option Nat)
    (inc ra disc : Bool) :
    (fragmentEvents p m ts inc ra disc).length = (fragmentChunks p m).length := by
  rw [fragmentEvents]
  cases h : fragmentChunks p m with
  | nil => rfl
  | cons c cs => simp

lemma fragmentEvents_tail_flags (p : List Nat) (m : Nat) (ts : Option Nat)
    (inc ra disc : Bool) :
    ∀ e ∈ (fragmentEvents p m ts inc ra disc).drop 1,
      e.includeInIndex = false ∧ e.randomAccess = false
        ∧ e.discontinuity = false := by
  rw [fragmentEvents]
  cases h : fragmentChunks p m with
  | nil =>
    intro e he
    exact absurd he (List.not_mem_nil e)
  | cons c cs =>
    intro e he
    simp only [List.drop_one, List.tail_cons, List.mem_map] at he
    obtain ⟨c', _, rfl⟩ := he
    exact ⟨rfl, rfl, rfl⟩

lemma render_ops_eq (cfg : RenderCfg) (s : SessionState) (b : RenderInput) :
    (render cfg s b).2
      = Op.captureOffset s.writerOffset
        :: ((if renderDecision cfg s b then [Op.flushData] else [])
          ++ (if renderDecision cfg s b then
                [Op.writeIndexRecord (renderRecord cfg s b)] else [])
          ++ (renderEvents cfg s b).map Op.writeEvent
          ++ (if b.flags.syncAfter then [Op.flushData, Op.flushIndex] else [])) := by
  rfl

lemma render_writeIndexRecord_mem (cfg : RenderCfg) (s : SessionState)
    (b : RenderInput) (r : IndexRecord) :
    Op.writeIndexRecord r ∈ (render cfg s b).2
      ↔ (renderDecision cfg s b = true ∧ r = renderRecord cfg s b) := by
  rw [render_ops_eq]
  cases hd : renderDecision cfg s b <;>
    cases hs : b.flags.syncAfter <;>
      simp [List.mem_append, List.mem_map, eq_comm]

/-- A concrete configuration used to exercise the theorems on explicit
inputs: 10 ns minimum and 100 ns maximum index interval, 2-byte atomic
payload limit, 4-byte event header. -/
def sampleCfg : RenderCfg :=
  { indexMinNanos := 10, indexMaxNanos := 100, maxPayloadSize := 2, headerSize := 4 }

/-- The freshly started session state with the data stream empty. -/
def sampleState : SessionState := initialSessionState 0

/-- A concrete key-frame buffer (no DELTA_UNIT flag) with a valid timestamp. -/
def sampleKeyBuffer : RenderInput :=
  { timestamp := some 50, duration := some 20, payload := [1, 2, 3],
    flags := { deltaUnit := false, discont := false, resync := false,
               syncAfter := false } }

/-- A session state in which one index record was written at t=0 and one
buffer has been written. -/
def sampleIndexedState : SessionState :=
  { firstValidTime := some 0, lastIndexTime := some 0, finalTimestamp := some 1,
    finalOffset := some 7, buffersWritten := 1, writerOffset := 7 }

/-- A concrete delta-unit buffer whose timestamp exceeds the last index time
plus the maximum index interval, forcing an index record at a delta frame. -/
def sampleLateDeltaBuffer : RenderInput :=
  { timestamp := some 200, duration := some 20, payload := [9],
    flags := { deltaUnit := true, discont := false, resync := false,
               syncAfter := false } }

/-- C1: for every render call in the Started state, the include-in-index
decision is a pure function of the canonical timestamp, the random-access
flag, `last_index_time`, `first_valid_time` and the min/max index intervals,
and it agrees with the spec's decision table (a `none` timestamp excluded;
no prior record: random-access included unconditionally, delta included iff
`timestamp > first_valid_time + max_interval`; prior record at `t`: delta
included iff `timestamp > t + max_interval`, random-access included iff
`timestamp ≥ t + min_interval`); moreover `render` writes an index record
exactly when that table says include. -/
theorem index_decision_matches_spec_table (ts : Option Nat) (delta : Bool)
    (lit fvt : Option Nat) (minN maxN : Nat)
    (cfg : RenderCfg) (s : SessionState) (b : RenderInput) :
    includeInIndex ts delta lit fvt minN maxN
        = specIncludeInIndex ts (!delta) lit fvt minN maxN
    ∧ ((∃ r, Op.writeIndexRecord r ∈ (render cfg s b).2)
        ↔ specIncludeInIndex b.timestamp (!b.flags.deltaUnit) s.lastIndexTime
            (updatedFirstValidTime s b) cfg.indexMinNanos cfg.indexMaxNanos
          = true) := by
  have key : ∀ (ts : Option Nat) (delta : Bool) (lit fvt : Option Nat)
      (minN maxN : Nat),
      includeInIndex ts delta lit fvt minN maxN
        = specIncludeInIndex ts (!delta) lit fvt minN maxN := by
    intro ts delta lit fvt minN maxN
    cases ts with
    | none => cases delta <;> rfl
    | some t =>
      cases lit with
      | some l =>
        cases delta with
        | true => rfl
        | false =>
          show (if t < l + minN then false else true) = decide (t ≥ l + minN)
          by_cases h : t < l + minN
          · rw [if_pos h]
            symm
            rw [decide_eq_false_iff_not]
            omega
          · rw [if_neg h]
            symm
            rw [decide_eq_true_eq]
            omega
      | none =>
        cases delta with
        | false => rfl
        | true =>
          cases fvt with
          | none => rfl
          | some f =>
            simp [includeInIndex, specIncludeInIndex, optAdd, optLt,
              decide_eq_decide]
  refine ⟨key ts delta lit fvt minN maxN, ?_⟩
  rw [← key]
  constructor
  · rintro ⟨r, hr⟩
    exact ((render_writeIndexRecord_mem cfg s b r).mp hr).1
  · intro hd
    exact ⟨renderRecord cfg s b,
      (render_writeIndexRecord_mem cfg s b _).mpr ⟨hd, rfl⟩⟩

/-- Witness for C1 at concrete inputs: a key frame 50 ns into a fresh
session is included in the index by both the code's decision and the spec's
table, and `render` writes an index record for it. -/
theorem index_decision_witness :
    (includeInIndex (some 50) false none none 10 100
        = specIncludeInIndex (some 50) true none none 10 100)
    ∧ ((∃ r, Op.writeIndexRecord r ∈ (render sampleCfg sampleState sampleKeyBuffer).2)
        ↔ specIncludeInIndex (some 50) true none (some 50) 10 100 = true) :=
  index_decision_matches_spec_table (some 50) false none none 10 100
    sampleCfg sampleState sampleKeyBuffer

/-- C2: for every render call, the discontinuity flag is true exactly when
the buffer is flagged discontinuous or resynced, or it is the very first
buffer written in the session, or it is being indexed while no index record
has yet been written; the flag is a pure function of session state and
buffer flags (re-deriving it yields the same boolean), and the index record
and the first written event both carry exactly this flag. -/
theorem discontinuity_flag_correct (flags : BufferFlags) (bw : Nat)
    (inc : Bool) (lit : Option Nat)
    (cfg : RenderCfg) (s : SessionState) (b : RenderInput) (r : IndexRecord) :
    (discontinuityFlag flags bw inc lit = true
      ↔ specDiscontinuity flags bw inc lit.isSome)
    ∧ discontinuityFlag flags bw inc lit = discontinuityFlag flags bw inc lit
    ∧ (Op.writeIndexRecord r ∈ (render cfg s b).2 →
        r.discontinuity = discontinuityFlag b.flags s.buffersWritten
          (renderDecision cfg s b) s.lastIndexTime)
    ∧ (∀ e, (renderEvents cfg s b).head? = some e →
        e.discontinuity = discontinuityFlag b.flags s.buffersWritten
          (renderDecision cfg s b) s.lastIndexTime) := by
  refine ⟨?_, rfl, ?_, ?_⟩
  · unfold discontinuityFlag specDiscontinuity
    cases hlit : lit <;>
      cases flags.discont <;> cases flags.resync <;> cases inc <;>
        simp [Option.isSome]
  · intro hmem
    have h := (render_writeIndexRecord_mem cfg s b r).mp hmem
    rw [h.2]
    rfl
  · intro e he
    rw [renderEvents, fragmentEvents] at he
    cases hch : fragmentChunks b.payload cfg.maxPayloadSize with
    | nil =>
      rw [hch] at he
      exact absurd he (by simp)
    | cons c cs =>
      rw [hch] at he
      simp only [List.head?_cons, Option.some_inj] at he
      rw [← he]

/-- Witness for C2 at concrete inputs: the index record `render` writes for
the first key frame of a fresh session carries exactly the discontinuity
flag re-derived from the session state and buffer flags. -/
theorem discontinuity_flag_witness :
    (renderRecord sampleCfg sampleState sampleKeyBuffer).discontinuity
      = discontinuityFlag sampleKeyBuffer.flags sampleState.buffersWritten
          (renderDecision sampleCfg sampleState sampleKeyBuffer)
          sampleState.lastIndexTime :=
  (discontinuity_flag_correct sampleKeyBuffer.flags 0 true none
    sampleCfg sampleState sampleKeyBuffer
    (renderRecord sampleCfg sampleState sampleKeyBuffer)).2.2.1
    ((render_writeIndexRecord_mem sampleCfg sampleState sampleKeyBuffer
      (renderRecord sampleCfg sampleState sampleKeyBuffer)).mpr ⟨by decide, rfl⟩)

/-- C4: in every render call that includes the buffer in the index, the
operation trace is exactly: capture the write offset, flush the buffered
data writes, write the index record, then the data writes (and any
SYNC_AFTER flushes) — so the flush precedes the index record and every data
write of this buffer follows it — and the index record references the
captured offset. -/
theorem index_write_ordering (cfg : RenderCfg) (s : SessionState)
    (b : RenderInput) (h : renderDecision cfg s b = true) :
    (render cfg s b).2
      = Op.captureOffset s.writerOffset :: Op.flushData
          :: Op.writeIndexRecord (renderRecord cfg s b)
          :: ((renderEvents cfg s b).map Op.writeEvent
            ++ (if b.flags.syncAfter then [Op.flushData, Op.flushIndex] else []))
    ∧ (renderRecord cfg s b).offset = s.writerOffset := by
  refine ⟨?_, rfl⟩
  rw [render_ops_eq, h]
  simp

/-- Witness for C4 at concrete inputs: the first key frame of a fresh
session is included, and its index record references the offset captured
before the write. -/
theorem index_write_ordering_witness :
    (renderRecord sampleCfg sampleState sampleKeyBuffer).offset
      = sampleState.writerOffset :=
  (index_write_ordering sampleCfg sampleState sampleKeyBuffer (by decide)).2

/-- C10: every index record written by `render` has its random-access field
equal to the negation of the buffer's DELTA_UNIT flag, independently of why
the record was included; in particular a record forced at a delta frame is
written with `random_access = false`. -/
theorem index_record_random_access (cfg : RenderCfg) (s : SessionState)
    (b : RenderInput) (r : IndexRecord)
    (h : Op.writeIndexRecord r ∈ (render cfg s b).2) :
    r.randomAccess = !b.flags.deltaUnit
    ∧ (b.flags.deltaUnit = true → r.randomAccess = false) := by
  have hr := (render_writeIndexRecord_mem cfg s b r).mp h
  rw [hr.2]
  refine ⟨rfl, ?_⟩
  intro hd
  show (!b.flags.deltaUnit) = false
  rw [hd]
  rfl

/-- Witness for C10 at concrete inputs: the index record forced at a late
delta frame (maximum interval exceeded) is written with
`random_access = false`. -/
theorem index_record_random_access_witness :
    (renderRecord sampleCfg sampleIndexedState sampleLateDeltaBuffer).randomAccess
      = false :=
  (index_record_random_access sampleCfg sampleIndexedState sampleLateDeltaBuffer
    (renderRecord sampleCfg sampleIndexedState sampleLateDeltaBuffer)
    ((render_writeIndexRecord_mem sampleCfg sampleIndexedState sampleLateDeltaBuffer
      (renderRecord sampleCfg sampleIndexedState sampleLateDeltaBuffer)).mpr
      ⟨by decide, rfl⟩)).2 (by decide)

/-- A concrete buffer with an empty payload and a valid timestamp. -/
def sampleEmptyBuffer : RenderInput :=
  { timestamp := some 50, duration := some 0, payload := [],
    flags := { deltaUnit := false, discont := false, resync := false,
               syncAfter := false } }

/-- C3 counterexample: an empty payload has length at most the maximum
atomic-write size, yet the fragmentation loop emits no event at all rather
than exactly one — the loop breaks as soon as `min(remaining, max)` is
zero, so a `render` call with an empty buffer writes no data events. -/
theorem fragmentation_empty_payload_counterexample :
    (([] : List Nat).length ≤ sampleCfg.maxPayloadSize)
    ∧ fragmentEvents [] sampleCfg.maxPayloadSize (some 50) true true true = []
    ∧ renderEvents sampleCfg sampleState sampleEmptyBuffer = [] := by
  refine ⟨by decide, ?_, ?_⟩
  · simp [fragmentEvents, fragmentChunks_nil]
  · simp [renderEvents, sampleEmptyBuffer, fragmentEvents, fragmentChunks_nil]

/-- C3 (amended): for every payload written by render with a positive
maximum atomic-write size: a nonempty payload of length at most the maximum
yields exactly one event carrying the timestamp, include-in-index,
random-access and discontinuity metadata unchanged; an empty payload yields
no events; the chunk payloads concatenate back to the original payload and
each is at most the maximum size, with `k+1` chunks for a payload of size
`k * max_unit + r` when `0 < r < max_unit`; every chunk after the first is
written with include-in-index, random-access and discontinuity all forced
to false; and `render` writes exactly these events for its buffer. -/
theorem render_fragmentation (p : List Nat) (m k r : Nat) (ts : Option Nat)
    (inc ra disc : Bool) (cfg : RenderCfg) (s : SessionState) (b : RenderInput)
    (hm : 0 < m) :
    (p.length ≠ 0 → p.length ≤ m →
      fragmentEvents p m ts inc ra disc
        = [{ payload := p, timestamp := ts, includeInIndex := inc,
             randomAccess := ra, discontinuity := disc }])
    ∧ (p = [] → fragmentEvents p m ts inc ra disc = [])
    ∧ (((fragmentEvents p m ts inc ra disc).map (fun e => e.payload)).flatten = p)
    ∧ (0 < r → r < m → p.length = k * m + r →
        (fragmentEvents p m ts inc ra disc).length = k + 1)
    ∧ (∀ e ∈ (fragmentEvents p m ts inc ra disc).drop 1,
        e.includeInIndex = false ∧ e.randomAccess = false
          ∧ e.discontinuity = false)
    ∧ (∀ e ∈ fragmentEvents p m ts inc ra disc, e.payload.length ≤ m)
    ∧ renderEvents cfg s b
        = fragmentEvents b.payload cfg.maxPayloadSize b.timestamp
            (renderDecision cfg s b) (!b.flags.deltaUnit)
            (discontinuityFlag b.flags s.buffersWritten (renderDecision cfg s b)
              s.lastIndexTime) := by
  refine ⟨?_, ?_, ?_, ?_, fragmentEvents_tail_flags p m ts inc ra disc, ?_, rfl⟩
  · intro h1 h2
    rw [fragmentEvents, fragmentChunks_small m p h1 h2]
    rfl
  · intro hp
    subst hp
    rw [fragmentEvents, fragmentChunks_nil]
  · rw [fragmentEvents_map_payload, fragmentChunks_flatten m (by omega) p]
  · intro hr hrm hp
    rw [fragmentEvents_length, fragmentChunks_length_exact m r hr hrm k p hp]
  · intro e he
    have hmem : e.payload
        ∈ (fragmentEvents p m ts inc ra disc).map (fun e => e.payload) :=
      List.mem_map_of_mem _ he
    rw [fragmentEvents_map_payload] at hmem
    exact fragmentChunks_chunk_le m p e.payload hmem

/-- Witness for C3 (amended) at concrete inputs: a 5-byte payload with a
2-byte maximum splits into 2+1 chunks. -/
theorem render_fragmentation_witness :
    (fragmentEvents [1, 2, 3, 4, 5] 2 (some 9) true false true).length = 2 + 1 :=
  (render_fragmentation [1, 2, 3, 4, 5] 2 2 1 (some 9) true false true
    sampleCfg sampleState sampleKeyBuffer (by decide)).2.2.2.1
    (by decide) (by decide) (by decide)

/-- C5: `stop` appends one final index record with `random_access=false` and
`discontinuity=false` exactly when a final offset was recorded and the final
timestamp is valid; the record carries the recorded final timestamp and
offset; `render` maintains these as the last valid buffer timestamp plus
`max(1 ns, duration)` and the offset after the last write; and a session in
which no buffer was ever written appends no final record. -/
theorem stop_final_record_correct (s : SessionState) (cfg : RenderCfg)
    (b : RenderInput) (ts tail : Nat) :
    ((stopFinalRecord s).isSome
        ↔ (s.finalOffset.isSome = true ∧ s.finalTimestamp.isSome = true))
    ∧ (∀ offv, s.finalOffset = some offv → s.finalTimestamp.isSome = true →
        stopFinalRecord s
          = some { timestamp := s.finalTimestamp, offset := offv,
                   randomAccess := false, discontinuity := false })
    ∧ (b.timestamp = some ts →
        (render cfg s b).1.finalTimestamp = some (ts + max 1 (b.duration.getD 0)))
    ∧ (render cfg s b).1.finalOffset = some (renderOffsetEnd cfg s b)
    ∧ stopFinalRecord (initialSessionState tail) = none := by
  refine ⟨?_, ?_, ?_, rfl, rfl⟩
  · unfold stopFinalRecord
    cases s.finalOffset <;> cases hft : s.finalTimestamp <;> simp [hft]
  · intro offv hoff hts
    simp [stopFinalRecord, hoff, hts]
  · intro h
    simp only [render]
    rw [h]

/-- Witness for C5 at concrete inputs: a session that wrote one buffer
(final timestamp 1 ns, final offset 7) gets exactly one final index record
with both flags false. -/
theorem stop_final_record_witness :
    stopFinalRecord sampleIndexedState
      = some { timestamp := some 1, offset := 7,
               randomAccess := false, discontinuity := false } :=
  (stop_final_record_correct sampleIndexedState sampleCfg sampleKeyBuffer
    50 0).2.1 7 rfl rfl

/-- Settings whose retention type is Days but with `retention-days` unset:
all other settings are valid, so `start` reaches the retention-policy
construction only after the stream-service I/O. -/
def retentionMisconfigSettings : SinkSettings Nat :=
  { scope := some "examples", stream := some "stream1",
    controller := some "addr", indexMinNanos := 0, indexMaxNanos := 0,
    allowCreateScope := true, retentionType := RetentionType.Days,
    retentionDays := none, retentionBytes := none }

/-- C6 counterexample: with retention type Days and `retention-days` unset
(all other settings valid), `start` does fail with the missing-parameter
error, but only after performing the scope/stream creation and writer
opening I/O — the error is not reported before any I/O occurs as the claim
states. -/
theorem start_retention_error_counterexample :
    (startTransition retentionMisconfigSettings).2
        = Except.error (StartErr.retentionParamMissing "retention-days is not set")
    ∧ (startTransition retentionMisconfigSettings).1 ≠ [] := by
  constructor
  · rfl
  · decide

/-- C6 (amended): the interval-ordering check and the missing scope, stream
and controller identifier checks fail `start` before any I/O occurs; a
missing required retention parameter also fails `start`, but only after the
stream-creation and writer-opening I/O; every `start` error leaves the
element Stopped. -/
theorem start_config_errors {D : Type} (s : SinkSettings D) (e : StartErr)
    (msg : String) :
    (¬ s.indexMinNanos ≤ s.indexMaxNanos →
        startTransition s = ([], Except.error StartErr.intervalOrder))
    ∧ (s.indexMinNanos ≤ s.indexMaxNanos → s.scope = none →
        startTransition s = ([], Except.error StartErr.scopeMissing))
    ∧ (s.indexMinNanos ≤ s.indexMaxNanos → s.scope ≠ none → s.stream = none →
        startTransition s = ([], Except.error StartErr.streamMissing))
    ∧ (s.indexMinNanos ≤ s.indexMaxNanos → s.scope ≠ none → s.stream ≠ none →
        s.controller ≠ none →
        RetentionPolicy.new s.retentionType s.retentionDays s.retentionBytes
          = Except.error msg →
        startTransition s
          = (startIOActions s.allowCreateScope,
             Except.error (StartErr.retentionParamMissing msg)))
    ∧ ((startTransition s).2 = Except.error e →
        phaseAfterStart s = SinkPhase.stopped) := by
  refine ⟨?_, ?_, ?_, ?_, ?_⟩
  · intro h
    simp [startTransition, h]
  · intro h hsc
    simp [startTransition, h, hsc]
  · intro h hsc hst
    obtain ⟨sc, hsc⟩ := Option.ne_none_iff_exists.mp hsc
    simp [startTransition, h, ← hsc, hst]
  · intro h hsc hst hco hpol
    obtain ⟨sc, hsc⟩ := Option.ne_none_iff_exists.mp hsc
    obtain ⟨st, hst⟩ := Option.ne_none_iff_exists.mp hst
    obtain ⟨co, hco⟩ := Option.ne_none_iff_exists.mp hco
    simp [startTransition, h, ← hsc, ← hst, ← hco, hpol]
  · intro herr
    unfold phaseAfterStart
    rw [herr]

/-- Settings with the minimum index interval above the maximum. -/
def intervalMisconfigSettings : SinkSettings Nat :=
  { scope := some "examples", stream := some "stream1",
    controller := some "addr", indexMinNanos := 5, indexMaxNanos := 2,
    allowCreateScope := true, retentionType := RetentionType.None,
    retentionDays := none, retentionBytes := none }

/-- Witness for C6 (amended) at concrete inputs: with min interval 5 ns and
max interval 2 ns, `start` fails with the interval-ordering error before
any I/O. -/
theorem start_config_errors_witness :
    startTransition intervalMisconfigSettings
      = ([], Except.error StartErr.intervalOrder) :=
  (start_config_errors intervalMisconfigSettings StartErr.intervalOrder
    "m").1 (by decide)

/-- C7: retention-policy construction fails exactly when a required
parameter for the selected retention type is missing — Days needs
`retention-days`, Bytes needs `retention-bytes`, DaysAndBytes needs both,
None always succeeds — and on success the policy carries the supplied
parameter values. -/
theorem retention_policy_new_correct {D B : Type} (days : Option D)
    (bytes : Option B) (d : D) (bv : B) :
    (RetentionPolicy.new RetentionType.None days bytes
        = Except.ok RetentionPolicy.None)
    ∧ ((∃ p, RetentionPolicy.new RetentionType.Days days bytes = Except.ok p)
        ↔ days.isSome = true)
    ∧ ((∃ p, RetentionPolicy.new RetentionType.Bytes days bytes = Except.ok p)
        ↔ bytes.isSome = true)
    ∧ ((∃ p, RetentionPolicy.new RetentionType.DaysAndBytes days bytes
          = Except.ok p)
        ↔ (days.isSome = true ∧ bytes.isSome = true))
    ∧ RetentionPolicy.new RetentionType.Days (some d) bytes
        = Except.ok (RetentionPolicy.days d)
    ∧ RetentionPolicy.new RetentionType.Bytes days (some bv)
        = Except.ok (RetentionPolicy.bytes bv)
    ∧ RetentionPolicy.new RetentionType.DaysAndBytes (some d) (some bv)
        = Except.ok (RetentionPolicy.daysAndBytes d bv) := by
  cases days <;> cases bytes <;>
    simp [RetentionPolicy.new]

/-- Witness for C7 at concrete inputs: DaysAndBytes with both parameters
set succeeds and carries the values. -/
theorem retention_policy_new_witness :
    RetentionPolicy.new RetentionType.DaysAndBytes (some (3 : Nat))
        (some (4 : Nat))
      = Except.ok (RetentionPolicy.daysAndBytes 3 4) :=
  (retention_policy_new_correct (some (3 : Nat)) (some (4 : Nat))
    3 4).2.2.2.2.2.2

/-- C8: the timestamp normalizer maps the raw pipeline timestamp to one
canonical value per the configured mode — RealtimeClock applies the
Unix-epoch conversion to `base_time + buffer_pts`, Ntp applies the
NTP-epoch conversion to `buffer_pts` alone (base time ignored), Tai takes
`buffer_pts` directly — and an unavailable raw timestamp yields `none`
without error. -/
theorem normalize_timestamp_correct (u n : Nat → Nat)
    (baseTime base2 pts : Option Nat) :
    normalizeTimestamp u n TimestampMode.RealtimeClock baseTime pts
        = (clockTimeAdd baseTime pts).map u
    ∧ normalizeTimestamp u n TimestampMode.Ntp baseTime pts = pts.map n
    ∧ normalizeTimestamp u n TimestampMode.Ntp baseTime pts
        = normalizeTimestamp u n TimestampMode.Ntp base2 pts
    ∧ normalizeTimestamp u n TimestampMode.Tai baseTime pts = pts
    ∧ (pts = none → ∀ mode, normalizeTimestamp u n mode baseTime pts = none) := by
  refine ⟨rfl, rfl, rfl, rfl, ?_⟩
  intro h mode
  subst h
  cases mode <;>
    cases baseTime <;>
      rfl

/-- Witness for C8 at concrete inputs: an unavailable buffer timestamp
normalizes to `none` in RealtimeClock mode. -/
theorem normalize_timestamp_witness :
    normalizeTimestamp id id TimestampMode.RealtimeClock (some 3) none
      = none :=
  (normalize_timestamp_correct id id (some 3) none none).2.2.2.2 rfl
    TimestampMode.RealtimeClock

/-- C9: in every retention-maintainer cycle, a failed locate makes that
truncation step issue no truncate calls (a failed time locate leaves
exactly the size step's calls; if both locates fail, no truncate call is
issued at all), and whether the loop continues is decided solely by the
stop channel — a timeout continues the loop, so a locate failure never
terminates the maintainer or surfaces an error. -/
theorem retention_locate_failure_nonfatal (seconds : Option Int)
    (bytes : Option Nat)
    (timeSearch sizeSearch t2 s2 : Except String SearchResult)
    (stop : StopRecv) (e1 e2 : String) :
    ((retentionCycle seconds bytes (Except.error e1) sizeSearch stop).1
        = (retentionCycle none bytes (Except.error e1) sizeSearch stop).1)
    ∧ ((retentionCycle seconds bytes (Except.error e1) (Except.error e2) stop).1
        = [])
    ∧ ((retentionCycle seconds bytes timeSearch sizeSearch stop).2
        = (retentionCycle seconds bytes t2 s2 stop).2)
    ∧ ((retentionCycle seconds bytes timeSearch sizeSearch stop).2
          = LoopOutcome.continueLoop ↔ stop = StopRecv.timeout) := by
  cases seconds <;> cases bytes <;> cases stop <;>
    simp [retentionCycle, truncStep]

/-- Witness for C9 at concrete inputs: with both policy components present
and both locates failing, the cycle issues no truncate call. -/
theorem retention_locate_failure_witness :
    (retentionCycle (some 5) (some 9) (Except.error "no record")
        (Except.error "empty index") StopRecv.timeout).1 = [] :=
  (retention_locate_failure_nonfatal (some 5) (some 9)
    (Except.error "no record") (Except.error "empty index")
    (Except.error "no record") (Except.error "empty index")
    StopRecv.timeout "no record" "empty index").2.1

end PravegaSink
